import Mathlib

/-!
A shallow embedding of `Annotation.cpp` (the annotation subsystem of the HIDL
compiler front end, namespace `android`): the `Annotation` class, its two
`AnnotationParam` variants, and their accessors, evaluation and rendering.

Machine conventions:
* `status_t` is the Android status integer; `OK` is `0`.  The reference code
  aborts (`CHECK`) on arity/shape violations; following the error taxonomy of
  the design (WrongArity / TypeMismatch carrying the offending parameter
  name), those aborts are embedded as `Except CheckError` results.
* C++ strings are embedded as Lean `String`; `value[0]` / `value[size-1]` /
  `substr(1, size-2)` act on the character sequence `String.data`.
* Evaluation functions additionally return a trace (the list of objects on
  which `evaluate` was invoked, in call order): this instruments the control
  flow of the source loops, whose fail-fast behaviour is otherwise invisible
  in a pure embedding.  The first component is always the value the source
  returns.
-/

instance {ε α : Type} [DecidableEq ε] [DecidableEq α] : DecidableEq (Except ε α) := fun x y =>
  match x, y with
  | .ok a, .ok b =>
    if h : a = b then isTrue (by rw [h]) else isFalse fun hh => h (Except.ok.inj hh)
  | .ok _, .error _ => isFalse fun hh => Except.noConfusion hh
  | .error _, .ok _ => isFalse fun hh => Except.noConfusion hh
  | .error a, .error b =>
    if h : a = b then isTrue (by rw [h]) else isFalse fun hh => h (Except.error.inj hh)

/-- `status_t`: Android's status integer, `OK = 0`. -/
abbrev status_t := Int

def OK : status_t := 0

/-- Error taxonomy for the `CHECK` aborts, carrying the offending parameter
name as the reference messages do. -/
inductive CheckError where
  | wrongArity (paramName : String)
  | typeMismatch (paramName : String)
deriving DecidableEq

/-- Modelled from the spec: `ConstantExpression` is owned by the expression
subsystem (outside `src/`); it exposes `value()` (folded textual
representation), `description()` (human-readable comment) and `evaluate()`
(forces constant folding, reporting success or the first failure).  The
node's evaluation outcome is modelled by the stored field `evalStatus`. -/
structure ConstantExpression where
  value : String
  description : String
  evalStatus : status_t
deriving DecidableEq

/-- Modelled from the spec: the node's `evaluate()` forces constant folding
and reports its outcome. -/
def ConstantExpression.evaluate (c : ConstantExpression ) : status_t :=
  c.evalStatus

/-- `convertToString` (Annotation.cpp:82-84):
`value->value() + " /* " + value->description() + " */"`. -/
def convertToString (value : ConstantExpression ) : String :=
  value.value ++ " /* " ++ value.description ++ " */"

/-- The `AnnotationParam` hierarchy as a closed sum:
`StringAnnotationParam` holds `mName` and `mValues : vector<string>`;
`ConstantExpressionAnnotationParam` holds `mName` and
`mValues : vector<ConstantExpression*>`. -/
inductive AnnotationParam where
  | string (mName : String) (mValues : List String)
  | constantExpression (mName : String) (mValues : List ConstantExpression )
deriving DecidableEq

/-- `AnnotationParam::getName` (Annotation.cpp:28-30). -/
def AnnotationParam.getName : AnnotationParam → String
  | .string n _ => n
  | .constantExpression n _ => n

/-- `ConstantExpressionAnnotationParam::getValues` loop body
(Annotation.cpp:86-92): `ret.push_back(convertToString(value))` for each
node, with `ret` the accumulator. -/
def getValuesLoop : List ConstantExpression → List String → List String
  | [], ret => ret
  | value :: rest, ret => getValuesLoop rest (ret ++ [convertToString value])

/-- `getValues`: `StringAnnotationParam::getValues` (Annotation.cpp:69-71)
returns `*mValues`; `ConstantExpressionAnnotationParam::getValues`
(Annotation.cpp:86-92) converts each node. -/
def AnnotationParam.getValues : AnnotationParam → List String
  | .string _ vs => vs
  | .constantExpression _ cs => getValuesLoop cs []

/-- `getSingleValue`: both variants `CHECK_EQ(mValues->size(), 1u)` then
return `mValues->at(0)` (converted for the constant-expression variant)
(Annotation.cpp:73-76 and 94-97). -/
def AnnotationParam.getSingleValue : AnnotationParam → Except CheckError String
  | .string n vs =>
    match vs with
    | [v] => .ok v
    | _ => .error (.wrongArity n)
  | .constantExpression n cs =>
    match cs with
    | [c] => .ok (convertToString c)
    | _ => .error (.wrongArity n)

/-- `AnnotationParam::getSingleString` (Annotation.cpp:40-50): fetch the
single value, `CHECK` it is a double-quoted literal of size ≥ 2, and return
`value.substr(1, value.size() - 2)`. -/
def AnnotationParam.getSingleString (p : AnnotationParam ) : Except CheckError String :=
  match p.getSingleValue with
  | .error e => .error e
  | .ok value =>
    if 2 ≤ value.length ∧ value.data.head? = some '"' ∧ value.data.getLast? = some '"' then
      .ok ⟨(value.data.drop 1).dropLast⟩
    else
      .error (.typeMismatch p.getName)

/-- `AnnotationParam::getSingleBool` (Annotation.cpp:52-63): unquote via
`getSingleString`, then require exactly `true` or `false`. -/
def AnnotationParam.getSingleBool (p : AnnotationParam ) : Except CheckError Bool :=
  match p.getSingleString with
  | .error e => .error e
  | .ok value =>
    if value = "true" then .ok true
    else if value = "false" then .ok false
    else .error (.typeMismatch p.getName)

/-- `ConstantExpressionAnnotationParam::evaluate` loop (Annotation.cpp:100-102):
`for (auto* value : *mValues) { value->evaluate(); }` — each node's
`evaluate` is invoked and its outcome discarded.  The returned list is the
trace of nodes evaluated, in order. -/
def evaluateNodesLoop : List ConstantExpression → List ConstantExpression
  | [] => []
  | value :: rest =>
    let _ := value.evaluate
    value :: evaluateNodesLoop rest

/-- `evaluate`: `AnnotationParam::evaluate` (Annotation.cpp:32-34) returns
`OK`; `ConstantExpressionAnnotationParam::evaluate` (Annotation.cpp:99-104)
runs the node loop and then returns `AnnotationParam::evaluate()`, i.e. `OK`.
Second component: the trace of nodes on which `evaluate` was invoked. -/
def AnnotationParam.evaluate : AnnotationParam → status_t × List ConstantExpression
  | .string _ _ => (OK, [])
  | .constantExpression _ cs => (OK, evaluateNodesLoop cs)

/-- The `Annotation` class: `mName` and the owned ordered parameter vector
`mParams` (Annotation.cpp:106-107). -/
structure Annotation where
  mName : String
  mParams : List AnnotationParam
deriving DecidableEq

/-- `Annotation::name` (Annotation.cpp:109-111). -/
def Annotation.name (a : Annotation ) : String := a.mName

/-- `Annotation::params` (Annotation.cpp:113-115). -/
def Annotation.params (a : Annotation ) : List AnnotationParam := a.mParams

/-- `Annotation::getParam` loop (Annotation.cpp:117-125): first parameter
whose `getName()` equals `name`, else `nullptr` (here `none`). -/
def getParamLoop : List AnnotationParam → String → Option AnnotationParam
  | [], _ => none
  | i :: rest, name => if i.getName = name then some i else getParamLoop rest name

/-- `Annotation::getParam` (Annotation.cpp:117-125). -/
def Annotation.getParam (a : Annotation ) (name : String) : Option AnnotationParam :=
  getParamLoop a.mParams name

/-- `Annotation::evaluate` loop (Annotation.cpp:127-133), abstracted over the
virtual dispatch `param->evaluate()` (the argument `f`): evaluate each
parameter in order and return the first non-`OK` result immediately.  Second
component: the trace of parameters on which `evaluate` was invoked. -/
def evaluateLoop (f : AnnotationParam → status_t) :
    List AnnotationParam → status_t × List AnnotationParam
  | [] => (OK, [])
  | param :: rest =>
    let err := f param
    if err ≠ OK then (err, [param])
    else
      let r := evaluateLoop f rest
      (r.1, param :: r.2)

/-- `Annotation::evaluate` (Annotation.cpp:127-133): the loop instantiated
with the concrete parameter `evaluate` of this translation unit. -/
def Annotation.evaluate (a : Annotation ) : status_t × List AnnotationParam :=
  evaluateLoop (fun p => (p.evaluate).1) a.mParams

/-- Modelled from the spec: `StringHelper::JoinStrings` (hidl-util, outside
`src/`) concatenates the components with the separator between consecutive
elements. -/
def JoinStrings : List String → String → String
  | [], _ => ""
  | [x], _ => x
  | x :: xs, separator => x ++ separator ++ JoinStrings xs separator

/-- `Annotation::dump` loop body for one parameter (Annotation.cpp:157-170),
one `let` per `out <<` append: `name=`, then the values joined by `", "`,
wrapped in braces exactly when `values.size() > 1`. -/
def dumpOneParam (param : AnnotationParam ) (out : String) : String :=
  let out := out ++ param.getName ++ "="
  let values := param.getValues
  let out := if values.length > 1 then out ++ "\x7b" else out
  let out := out ++ JoinStrings values ", "
  if values.length > 1 then out ++ "\x7d" else out

/-- `Annotation::dump` parameter loop (Annotation.cpp:152-171): a `", "`
separator before every parameter but the first (`i > 0`), then the parameter
body. -/
def dumpLoop : List AnnotationParam → Nat → String → String
  | [], _, out => out
  | param :: rest, i, out =>
    let out := if i > 0 then out ++ ", " else out
    dumpLoop rest (i + 1) (dumpOneParam param out)

/-- `Annotation::dump` (Annotation.cpp:143-174): `@Name`, and when the
parameter vector is non-empty `(`, the parameter loop, `)`. -/
def Annotation.dump (a : Annotation ) : String :=
  let out := "@" ++ a.mName
  if a.mParams.length = 0 then out
  else dumpLoop a.mParams 0 (out ++ "(") ++ ")"

/-- Rendering of a single parameter as the specification words it: `key=value`
when it has exactly one value (more generally, no braces when the value count
is at most one), `key={v1, v2, ...}` when it has more than one. -/
def dumpParamSpec (p : AnnotationParam ) : String :=
  if p.getValues.length > 1 then
    p.getName ++ "=\x7b" ++ JoinStrings p.getValues ", " ++ "\x7d"
  else
    p.getName ++ "=" ++ JoinStrings p.getValues ", "

/-- The dump format as the specification words it: `@Name` when the
parameter sequence is empty, otherwise `@Name(` ++ the parameters rendered by
`dumpParamSpec` in declaration order separated by `", "` ++ `)`. -/
def dumpSpec (a : Annotation ) : String :=
  if a.mParams.isEmpty then "@" ++ a.name
  else "@" ++ a.name ++ "(" ++ JoinStrings (a.mParams.map dumpParamSpec) ", " ++ ")"

/-- Proof helper: the text the dump loop emits after its first parameter —
each remaining parameter rendered by `dumpParamSpec`, preceded by `", "`. -/
def prefixedConcat : List AnnotationParam → String
  | [] => ""
  | p :: rest => ", " ++ dumpParamSpec p ++ prefixedConcat rest

example : ( ⟨"token", [ .string "repr" ["\"abc\""] ]⟩ : Annotation ).dump
    = "@token(repr=\"abc\")" := by decide

example : ( AnnotationParam.string "repr" ["\"abc\""]).getSingleString
    = Except.ok "abc" := by decide

example : ( ⟨"Name", [ .string "key" [] ]⟩ : Annotation ).dump
    = "@Name(key=)" := by decide

example : ( ⟨"N", [ .string "k" ["a", "b"] ]⟩ : Annotation ).dump
    = "@N(k=\x7ba, b\x7d)" := by decide

lemma getValuesLoop_eq (cs : List ConstantExpression ) (ret : List String) :
    getValuesLoop cs ret = ret ++ cs.map convertToString := by
  induction cs generalizing ret with
  | nil => simp [getValuesLoop]
  | cons c rest ih => simp [getValuesLoop, ih]

lemma getValues_string (n : String) (vs : List String) :
    ( AnnotationParam.string n vs).getValues = vs := rfl

lemma getValues_constantExpression (n : String) (cs : List ConstantExpression ) :
    ( AnnotationParam.constantExpression n cs).getValues = cs.map convertToString := by
  show getValuesLoop cs [] = _
  simp [getValuesLoop_eq]

/-- Claim C8: `getValues` of the String variant returns the stored string
literals verbatim and in declaration order; `getValues` of the
ConstantExpression variant returns, for each underlying node in order, the
string `<value> /* <description> */`. -/
theorem C8_getValues :
    (∀ (n : String) (vs : List String),
      ( AnnotationParam.string n vs).getValues = vs) ∧
    (∀ (n : String) (cs : List ConstantExpression ),
      ( AnnotationParam.constantExpression n cs).getValues
        = cs.map fun c => c.value ++ " /* " ++ c.description ++ " */") := by
  refine ⟨fun n vs => rfl, fun n cs => ?_⟩
  rw [getValues_constantExpression]
  rfl

/-- Claim C6: `getSingleValue` fails with WrongArity if and only if the number
of stored values differs from 1; when exactly one value is stored it returns
that value (the stored literal for the String variant, the formatted
`<value> /* <description> */` text for the ConstantExpression variant), i.e.
the unique element of `getValues`. -/
theorem C6_getSingleValue (p : AnnotationParam ) :
    (p.getValues.length ≠ 1 ↔
      p.getSingleValue = Except.error (CheckError.wrongArity p.getName)) ∧
    (∀ v, p.getValues = [v] → p.getSingleValue = Except.ok v) := by
  cases p with
  | string n vs =>
    rcases vs with _ | ⟨v, _ | ⟨w, rest⟩⟩ <;>
      simp [AnnotationParam.getSingleValue, getValues_string, AnnotationParam.getName]
  | constantExpression n cs =>
    rcases cs with _ | ⟨c, _ | ⟨d, rest⟩⟩ <;>
      simp [AnnotationParam.getSingleValue, getValues_constantExpression,
        AnnotationParam.getName]

/-- Claim C6 witness: arity 1 succeeds with the stored value, arity 0 and
arity 2 fail with WrongArity, on both variants. -/
theorem C6_getSingleValue_witness :
    ( AnnotationParam.string "n" ["a"]).getSingleValue = Except.ok "a" ∧
    ( AnnotationParam.string "n" []).getSingleValue
      = Except.error (CheckError.wrongArity "n") ∧
    ( AnnotationParam.constantExpression "m" [⟨"7", "3+4", OK⟩]).getSingleValue
      = Except.ok "7 /* 3+4 */" ∧
    ( AnnotationParam.constantExpression "m" [⟨"1", "1", OK⟩, ⟨"2", "2", OK⟩]).getSingleValue
      = Except.error (CheckError.wrongArity "m") := by
  refine ⟨?_, ?_, ?_, ?_⟩
  · exact (C6_getSingleValue (.string "n" ["a"])).2 "a" (by decide)
  · exact (C6_getSingleValue (.string "n" [])).1.mp (by decide)
  · exact (C6_getSingleValue (.constantExpression "m" [⟨"7", "3+4", OK⟩])).2
      "7 /* 3+4 */" (by decide)
  · exact (C6_getSingleValue
      (.constantExpression "m" [⟨"1", "1", OK⟩, ⟨"2", "2", OK⟩])).1.mp (by decide)

/-- Claim C4: for every parameter whose `getSingleValue` yields `v`,
`getSingleString` fails with TypeMismatch unless `v` has length at least 2
and both its first and last characters are `"`;
when it succeeds it returns `v` with exactly the first and last characters
removed. -/
theorem C4_getSingleString (p : AnnotationParam ) (v : String)
    (h : p.getSingleValue = Except.ok v) :
    (2 ≤ v.length ∧ v.data.head? = some '"' ∧ v.data.getLast? = some '"' →
      p.getSingleString = Except.ok ⟨(v.data.drop 1).dropLast⟩) ∧
    (¬(2 ≤ v.length ∧ v.data.head? = some '"' ∧ v.data.getLast? = some '"') →
      p.getSingleString = Except.error (CheckError.typeMismatch p.getName)) := by
  constructor <;> intro hc <;>
    simp [AnnotationParam.getSingleString, h, hc]

/-- Claim C4 witness: the quoted value `"abc"` unquotes to `abc`; the
unquoted value `abc` fails with TypeMismatch. -/
theorem C4_getSingleString_witness :
    ( AnnotationParam.string "n" ["\"abc\""]).getSingleString = Except.ok "abc" ∧
    ( AnnotationParam.string "n" ["abc"]).getSingleString
      = Except.error (CheckError.typeMismatch "n") := by
  constructor
  · exact ((C4_getSingleString (.string "n" ["\"abc\""]) "\"abc\"" (by decide)).1
      (by decide)).trans (by decide)
  · exact (C4_getSingleString (.string "n" ["abc"]) "abc" (by decide)).2 (by decide)

/-- Claim C5: `getSingleBool` first obtains the unquoted string via
`getSingleString` (propagating its failure), returns `true` when that string
is exactly `true`, `false` when it is exactly `false`, and fails with
TypeMismatch for every other string. -/
theorem C5_getSingleBool (p : AnnotationParam ) :
    (∀ e, p.getSingleString = Except.error e → p.getSingleBool = Except.error e) ∧
    (p.getSingleString = Except.ok "true" → p.getSingleBool = Except.ok true) ∧
    (p.getSingleString = Except.ok "false" → p.getSingleBool = Except.ok false) ∧
    (∀ s, p.getSingleString = Except.ok s → s ≠ "true" → s ≠ "false" →
      p.getSingleBool = Except.error (CheckError.typeMismatch p.getName)) := by
  refine ⟨fun e h => ?_, fun h => ?_, fun h => ?_, fun s h h1 h2 => ?_⟩ <;>
    simp [AnnotationParam.getSingleBool, h, *]

/-- Claim C5 witness: `"true"` and `"false"` (quoted) evaluate to the booleans,
`"yes"` (quoted) fails with TypeMismatch, and an unquoted value propagates
`getSingleString`'s failure. -/
theorem C5_getSingleBool_witness :
    ( AnnotationParam.string "n" ["\"true\""]).getSingleBool = Except.ok true ∧
    ( AnnotationParam.string "n" ["\"false\""]).getSingleBool = Except.ok false ∧
    ( AnnotationParam.string "n" ["\"yes\""]).getSingleBool
      = Except.error (CheckError.typeMismatch "n") ∧
    ( AnnotationParam.string "n" ["abc"]).getSingleBool
      = Except.error (CheckError.typeMismatch "n") := by
  refine ⟨?_, ?_, ?_, ?_⟩
  · exact (C5_getSingleBool (.string "n" ["\"true\""])).2.1 (by decide)
  · exact (C5_getSingleBool (.string "n" ["\"false\""])).2.2.1 (by decide)
  · exact (C5_getSingleBool (.string "n" ["\"yes\""])).2.2.2 "yes" (by decide)
      (by decide) (by decide)
  · exact (C5_getSingleBool (.string "n" ["abc"])).1
      (CheckError.typeMismatch "n") (by decide)

lemma getParamLoop_none_iff (ps : List AnnotationParam ) (n : String) :
    getParamLoop ps n = none ↔ ∀ p ∈ ps, p.getName ≠ n := by
  induction ps with
  | nil => simp [getParamLoop]
  | cons q rest ih =>
    by_cases h : q.getName = n
    · simp [getParamLoop, h]
    · simp [getParamLoop, h, ih]

lemma getParamLoop_some_iff (ps : List AnnotationParam ) (n : String)
    (p : AnnotationParam ) :
    getParamLoop ps n = some p ↔
      ∃ l1 l2, ps = l1 ++ p :: l2 ∧ p.getName = n ∧ ∀ q ∈ l1, q.getName ≠ n := by
  induction ps with
  | nil => simp [getParamLoop]
  | cons q rest ih =>
    by_cases h : q.getName = n
    · simp only [getParamLoop, if_pos h]
      constructor
      · intro hs
        obtain rfl : q = p := Option.some.inj hs
        exact ⟨[], rest, rfl, h, by simp⟩
      · rintro ⟨l1, l2, heq, hname, hclean⟩
        cases l1 with
        | nil =>
          simp only [List.nil_append, List.cons.injEq] at heq
          rw [heq.1]
        | cons r l1t =>
          simp only [List.cons_append, List.cons.injEq] at heq
          exact absurd (heq.1 ▸ h) (hclean r (List.mem_cons_self r l1t))
    · simp only [getParamLoop, if_neg h, ih]
      constructor
      · rintro ⟨l1, l2, heq, hname, hclean⟩
        refine ⟨q :: l1, l2, by rw [heq, List.cons_append], hname, ?_⟩
        intro x hx
        rcases List.mem_cons.mp hx with rfl | hx'
        · exact h
        · exact hclean x hx'
      · rintro ⟨l1, l2, heq, hname, hclean⟩
        cases l1 with
        | nil =>
          simp only [List.nil_append, List.cons.injEq] at heq
          exact absurd (heq.1 ▸ hname) h
        | cons r l1t =>
          simp only [List.cons_append, List.cons.injEq] at heq
          exact ⟨l1t, l2, heq.2, hname, fun x hx => hclean x (List.mem_cons_of_mem r hx)⟩

/-- Claim C7: `getParam` scans the parameter sequence in declaration order and
returns the first parameter whose name equals the given name; it returns
"not found" (`none`) exactly when no parameter has that name, and when two
parameters share the name only the first in declaration order is returned. -/
theorem C7_getParam (a : Annotation ) (name : String) :
    (a.getParam name = none ↔ ∀ p ∈ a.mParams, p.getName ≠ name) ∧
    (∀ p, a.getParam name = some p ↔
      ∃ l1 l2, a.mParams = l1 ++ p :: l2 ∧ p.getName = name ∧
        ∀ q ∈ l1, q.getName ≠ name) :=
  ⟨getParamLoop_none_iff a.mParams name, fun p => getParamLoop_some_iff a.mParams name p⟩

/-- Claim C7 witness: no parameter named `x` gives `none`; a unique match is
returned; of two identically named parameters the first one is returned. -/
theorem C7_getParam_witness :
    ( ⟨"A", [ .string "y" ["1"] ]⟩ : Annotation ).getParam "x" = none ∧
    ( ⟨"A", [ .string "x" ["1"] ]⟩ : Annotation ).getParam "x"
      = some (.string "x" ["1"]) ∧
    ( ⟨"A", [ .string "x" ["1"], .string "x" ["2"] ]⟩ : Annotation ).getParam "x"
      = some (.string "x" ["1"]) := by
  refine ⟨?_, ?_, ?_⟩
  · exact (C7_getParam ⟨"A", [ .string "y" ["1"] ]⟩ "x").1.mpr (by decide)
  · exact ((C7_getParam ⟨"A", [ .string "x" ["1"] ]⟩ "x").2 (.string "x" ["1"])).mpr
      ⟨[], [], rfl, rfl, by simp⟩
  · exact ((C7_getParam ⟨"A", [ .string "x" ["1"], .string "x" ["2"] ]⟩ "x").2
      (.string "x" ["1"])).mpr ⟨[], [ .string "x" ["2"] ], rfl, rfl, by simp⟩

/-- Claim C9 counterexample: the constructor accepts the empty name and stores
it unchanged — `Annotation("")` has `name()` of length 0, so the constructor
does not establish non-emptiness. -/
theorem C9_counterexample : ( ⟨"", []⟩ : Annotation ).name.length = 0 := rfl

/-- Claim C9 (amended): the constructor stores the supplied name verbatim and
`name()` returns exactly the construction argument; in particular the name is
non-empty whenever the construction argument is — but the constructor itself
enforces no non-emptiness. -/
theorem C9_name_from_constructor (n : String) (ps : List AnnotationParam ) :
    ( ⟨n, ps⟩ : Annotation ).name = n ∧
    (1 ≤ n.length → 1 ≤ ( ⟨n, ps⟩ : Annotation ).name.length) :=
  ⟨rfl, fun h => h⟩

/-- Claim C9 witness: a concrete non-empty construction argument yields a
non-empty `name()`. -/
theorem C9_name_from_constructor_witness :
    1 ≤ ("MinSize" : String).length ∧
    1 ≤ ( ⟨"MinSize", []⟩ : Annotation ).name.length :=
  ⟨by decide, (C9_name_from_constructor "MinSize" []).2 (by decide)⟩

lemma evaluateNodesLoop_eq (cs : List ConstantExpression ) :
    evaluateNodesLoop cs = cs := by
  induction cs with
  | nil => rfl
  | cons c rest ih => simp [evaluateNodesLoop, ih]

/-- Claim C3 (amended): the ConstantExpression variant's `evaluate` invokes
evaluation on every underlying node, in order — but it returns `OK`
unconditionally: an underlying node's failure is not propagated through the
return value. -/
theorem C3_constantExpression_evaluate (n : String) (cs : List ConstantExpression ) :
    ( AnnotationParam.constantExpression n cs).evaluate = (OK, cs) := by
  show (OK, evaluateNodesLoop cs) = (OK, cs)
  rw [evaluateNodesLoop_eq]

/-- Claim C3 counterexample: a parameter over a single node whose evaluation
fails still returns `OK` from `evaluate`, not the node's failure. -/
theorem C3_counterexample :
    ConstantExpression.evaluate ⟨"1", "bad", -1⟩ ≠ OK ∧
    ( AnnotationParam.constantExpression "p" [⟨"1", "bad", -1⟩]).evaluate.1 = OK :=
  ⟨by decide, rfl⟩

lemma evaluateLoop_all_ok (f : AnnotationParam → status_t)
    (ps : List AnnotationParam ) (h : ∀ p ∈ ps, f p = OK) :
    evaluateLoop f ps = (OK, ps) := by
  induction ps with
  | nil => rfl
  | cons p rest ih =>
    have hp : f p = OK := h p (List.mem_cons_self p rest)
    simp [evaluateLoop, hp, ih fun q hq => h q (List.mem_cons_of_mem p hq)]

lemma evaluateLoop_fst_ok_iff (f : AnnotationParam → status_t)
    (ps : List AnnotationParam ) :
    (evaluateLoop f ps).1 = OK ↔ ∀ p ∈ ps, f p = OK := by
  induction ps with
  | nil => simp [evaluateLoop]
  | cons p rest ih =>
    by_cases hp : f p = OK
    · simp [evaluateLoop, hp, ih]
    · simp [evaluateLoop, hp]

lemma evaluateLoop_first_failure (f : AnnotationParam → status_t)
    (l1 : List AnnotationParam ) (p : AnnotationParam ) (l2 : List AnnotationParam )
    (hclean : ∀ q ∈ l1, f q = OK) (hp : f p ≠ OK) :
    evaluateLoop f (l1 ++ p :: l2) = (f p, l1 ++ [p]) := by
  induction l1 with
  | nil => simp [evaluateLoop, hp]
  | cons q l1t ih =>
    have hq : f q = OK := hclean q (List.mem_cons_self q l1t)
    simp [evaluateLoop, hq, ih fun x hx => hclean x (List.mem_cons_of_mem q hx)]

/-- Claim C2: the `Annotation::evaluate` loop — here `evaluateLoop f`, with
`f` the virtually-dispatched `param->evaluate()` — processes the parameters
strictly in declaration order; it succeeds (returning `OK`, having invoked
every parameter in order) if and only if every parameter's evaluate succeeds,
and on the first parameter-level failure it returns that failure immediately,
invoking no later parameter (the trace stops at the failing parameter).
`Annotation::evaluate` is this loop at the concrete parameter `evaluate`. -/
theorem C2_evaluate_fail_fast (f : AnnotationParam → status_t)
    (ps : List AnnotationParam ) :
    ((evaluateLoop f ps).1 = OK ↔ ∀ p ∈ ps, f p = OK) ∧
    ((∀ p ∈ ps, f p = OK) → evaluateLoop f ps = (OK, ps)) ∧
    (∀ l1 p l2, ps = l1 ++ p :: l2 → (∀ q ∈ l1, f q = OK) → f p ≠ OK →
      evaluateLoop f ps = (f p, l1 ++ [p])) ∧
    (∀ (a : Annotation ), a.mParams = ps →
      a.evaluate = evaluateLoop (fun q => (q.evaluate).1) ps) := by
  refine ⟨evaluateLoop_fst_ok_iff f ps, evaluateLoop_all_ok f ps, ?_, ?_⟩
  · intro l1 p l2 heq h1 h2
    rw [heq]
    exact evaluateLoop_first_failure f l1 p l2 h1 h2
  · intro a ha
    rw [← ha]
    rfl

/-- Claim C2 witness: with parameters `[P1, P2]` and a dispatch on which `P1`
fails, the loop returns `P1`'s failure and the trace shows `P2` was never
invoked. -/
theorem C2_evaluate_fail_fast_witness :
    evaluateLoop (fun q => if q.getName = "P1" then (-32 : Int) else OK)
      [ .string "P1" [], .string "P2" [] ]
      = (-32, [ .string "P1" [] ]) := by
  have h := (C2_evaluate_fail_fast
      (fun q => if q.getName = "P1" then (-32 : Int) else OK)
      [ .string "P1" [], .string "P2" [] ]).2.2.1
    [] (.string "P1" []) [ .string "P2" [] ] rfl (by decide) (by decide)
  exact h.trans (by decide)

lemma dumpOneParam_eq (p : AnnotationParam ) (out : String) :
    dumpOneParam p out = out ++ dumpParamSpec p := by
  unfold dumpOneParam dumpParamSpec
  by_cases h : p.getValues.length > 1
  · simp only [if_pos h, String.append_assoc]
    rw [← String.append_assoc "=" "\x7b"]
    rfl
  · simp only [if_neg h, String.append_assoc]

lemma dumpLoop_succ (ps : List AnnotationParam ) (i : Nat) (out : String) :
    dumpLoop ps (i + 1) out = out ++ prefixedConcat ps := by
  induction ps generalizing i out with
  | nil => simp [dumpLoop, prefixedConcat, String.append_empty]
  | cons p rest ih =>
    simp only [dumpLoop, if_pos (Nat.succ_pos i)]
    rw [ih, dumpOneParam_eq]
    simp [prefixedConcat, String.append_assoc]

lemma JoinStrings_map_eq (p : AnnotationParam ) (rest : List AnnotationParam ) :
    JoinStrings ((p :: rest).map dumpParamSpec) ", "
      = dumpParamSpec p ++ prefixedConcat rest := by
  induction rest generalizing p with
  | nil => simp [JoinStrings, prefixedConcat, String.append_empty]
  | cons q rest' ih =>
    show dumpParamSpec p ++ ", " ++ JoinStrings ((q :: rest').map dumpParamSpec) ", " = _
    rw [ih]
    simp [prefixedConcat, String.append_assoc]

/-- Claim C1: `dump` writes exactly `@` followed by the annotation name when
the parameter sequence is empty; otherwise `@Name(`, then each parameter in
declaration order separated by `", "`, each rendered as `key=value` when it
has exactly one value and as `key={v1, v2, ...}` when it has more than one
(braces exactly when the value count exceeds 1, regardless of variant),
followed by `)` — i.e. `dump` equals the format the specification words
(`dumpSpec`).  End to end, `@token(repr="abc")` is produced and the
parameter unquotes back to `abc`. -/
theorem C1_dump :
    (∀ (a : Annotation ), a.dump = dumpSpec a) ∧
    ( ⟨"token", [ .string "repr" ["\"abc\""] ]⟩ : Annotation ).dump
      = "@token(repr=\"abc\")" ∧
    ( ⟨"token", [ .string "repr" ["\"abc\""] ]⟩ : Annotation ).getParam "repr"
      = some (.string "repr" ["\"abc\""]) ∧
    ( AnnotationParam.string "repr" ["\"abc\""]).getSingleString
      = Except.ok "abc" := by
  refine ⟨fun a => ?_, by decide, by decide, by decide⟩
  obtain ⟨n, ps⟩ := a
  cases ps with
  | nil => rfl
  | cons p rest =>
    show dumpLoop rest 1 (dumpOneParam p ("@" ++ n ++ "(")) ++ ")" = _
    rw [dumpLoop_succ, dumpOneParam_eq]
    show _ = "@" ++ n ++ "(" ++ JoinStrings ((p :: rest).map dumpParamSpec) ", " ++ ")"
    rw [JoinStrings_map_eq]
    simp [String.append_assoc]

/-- Claim C10: a parameter whose `getValues` is the empty sequence is still
rendered by `dump` as its name followed by `=` with nothing after it and no
braces, the joined empty value list being the empty string. -/
theorem C10_dump_empty_values :
    (∀ (n k : String), ( ⟨n, [ .string k [] ]⟩ : Annotation ).dump
      = "@" ++ n ++ "(" ++ k ++ "=)") ∧
    ( ⟨"Name", [ .string "key" [], .string "k2" ["v"] ]⟩ : Annotation ).dump
      = "@Name(key=, k2=v)" := by
  refine ⟨fun n k => ?_, by decide⟩
  show dumpOneParam (.string k []) ("@" ++ n ++ "(") ++ ")" = _
  rw [dumpOneParam_eq]
  show ("@" ++ n ++ "(" ++ (k ++ "=" ++ "")) ++ ")" = "@" ++ n ++ "(" ++ k ++ "=)"
  rw [String.append_empty]
  simp only [String.append_assoc]
  rfl
